import Mathlib

/-!
Verification of the CreditCardSpendAnalyzer sync / analytics backend.

A shallow embedding of the transaction-sync pipeline, the analytics
aggregation arithmetic and the LLM-provider fallback logic of the
`backend/` sources, together with proofs of the behavioural properties
stated in the design document.

Modelling conventions:
* Python floats (transaction amounts, confidences) are modelled as `ℚ`.
* Calendar dates and timestamps are modelled as integers (day numbers);
  only ordering and subtraction of dates matter to the code under study.
* Database tables are lists of records; a SQLAlchemy session is a pair of
  a committed and a pending database state.
* Fallible calls (the Plaid client, the LLM chat call, `json.loads`) are
  modelled with `Except`/`Option` values describing the outcome of the
  corresponding `try` block.
-/

/-- A raw transaction as returned by the aggregation provider, with the
fields that `PlaidService.sync_transactions` reads
(`backend/services/plaid_service.py`, lines 186-198). -/
structure ProviderTxn where
  transaction_id : String
  account_id : String
  amount : ℚ
  date : Int
  merchant_name : Option String
  name : Option String
  category : List String
  pending : Bool
deriving DecidableEq

/-- The per-transaction dictionary built by `PlaidService.sync_transactions`
(lines 187-198) and consumed by `sync_transactions_background`. -/
structure TxnData where
  external_id : String
  plaid_account_id : String
  amount : ℚ
  date : Int
  merchant_name : Option String
  description : Option String
  category : Option String
  pending : Bool
deriving DecidableEq

/-- Python's `a or b` on optional strings: `None` and the empty string are
falsy, so they fall through to `b`. -/
def pyOr (a b : Option String) : Option String :=
  match a with
  | some s => if s = "" then b else some s
  | none => b

/-- The dictionary built for one provider transaction in
`PlaidService.sync_transactions` lines 187-198:
`merchant_name` is `txn.get("merchant_name") or txn.get("name")`,
`category` is the first label when the provider's category list is
non-empty. -/
def toTxnData (txn : ProviderTxn) : TxnData :=
  { external_id := txn.transaction_id
    plaid_account_id := txn.account_id
    amount := txn.amount
    date := txn.date
    merchant_name := pyOr txn.merchant_name txn.name
    description := txn.name
    category := txn.category.head?
    pending := txn.pending }

/-- The constant `batch_size = 500  # Plaid max per request` (plaid_service.py line 153). -/
def batch_size : Nat := 500

/-- One page response of `transactions_get`: the transactions of the page
and the `total_transactions` figure for the whole range. -/
abbrev PageResponse := List ProviderTxn × Nat

/-- The pagination `while has_more` loop of `PlaidService.sync_transactions`
(lines 161-202), with an explicit fuel bound (the Python loop has no
built-in bound; `none` marks fuel exhaustion and never occurs for the
providers considered here).  `fetch count offset` stands for one
`transactions_get` call.  The loop appends the translated page to the
accumulator, records the offset it requested, advances
`offset += len(transactions)` and continues while `offset < total`.
It also returns the list of offsets at which requests were issued. -/
def syncFetchLoop (fetch : Nat → Nat → PageResponse) :
    Nat → Nat → List TxnData → List Nat → Option (List TxnData × List Nat)
  | 0, _, _, _ => none
  | fuel + 1, offset, acc, reqs =>
      let page := fetch batch_size offset
      let acc' := acc ++ page.1.map toTxnData
      let offset' := offset + page.1.length
      let reqs' := reqs ++ [offset]
      if offset' < page.2 then
        syncFetchLoop fetch fuel offset' acc' reqs'
      else
        some (acc', reqs')

/-- The fetch phase of `PlaidService.sync_transactions`: run the pagination loop
from offset 0 with an empty accumulator. -/
def sync_transactions_fetch (fetch : Nat → Nat → PageResponse) (fuel : Nat) :
    Option (List TxnData × List Nat) :=
  syncFetchLoop fetch fuel 0 [] []

/-- Date-window defaulting at the head of `PlaidService.sync_transactions`
(lines 146-149): a missing end date becomes today (`datetime.now()`), a
missing start date becomes the end date minus 730 days. -/
def syncWindow (today : Int) (start_date end_date : Option Int) : Int × Int :=
  let e := match end_date with | none => today | some d => d
  let s := match start_date with | none => e - 730 | some d => d
  (s, e)

/-- The `models/transaction.py` `Transaction` columns used by the sync and
analytics code.  The uuid primary key is generated randomly and read by no
property studied here, so it is not modelled. -/
structure Transaction where
  external_id : String
  account_id : Option String
  amount : ℚ
  date : Int
  merchant_name : Option String
  description : Option String
  category : Option String
  source : String
  is_reimbursement : Bool
  ai_category : Option String
deriving DecidableEq

/-- The `models/account.py` `Account` columns, together with the `user_id`
ownership column that every route in `api/routes` reads and writes
(`Account(user_id=...)` in plaid.py line 106, `Account.user_id` filters in
plaid.py and analytics.py; spec §3: an Account is owned by exactly one
user).  `models/account.py` itself omits the column - a schema slip noted
in the results. -/
structure Account where
  id : String
  plaid_account_id : String
  user_id : String
  account_name : String
  account_type : Option String
  institution_name : Option String
  last_four : Option String
  last_sync_timestamp : Option Int
deriving DecidableEq

/-- The `models/plaid_item.py` `PlaidItem` columns used by the sync routes. -/
structure PlaidItem where
  user_id : String
  access_token : String
  item_id : String
  institution_id : Option String
deriving DecidableEq

/-- The stored database state: the three tables the claims mention. -/
structure DB where
  plaid_items : List PlaidItem
  accounts : List Account
  transactions : List Transaction
deriving DecidableEq

/-- The `select(PlaidItem).where(item_id == .., user_id == ..)` lookup of
`sync_transactions_background` (plaid.py lines 196-200). -/
def findPlaidItem (db : DB) (item_id user_id : String) : Option PlaidItem :=
  db.plaid_items.find? (fun it => it.item_id == item_id && it.user_id == user_id)

/-- The per-user account mapping built at plaid.py lines 212-214:
`select(Account).where(Account.user_id == user_id)`.  (`plaid_account_id`
carries a unique constraint, so keeping the first match models the dict
comprehension faithfully.) -/
def accountsMap (db : DB) (user_id : String) : List Account :=
  db.accounts.filter (fun a => a.user_id == user_id)

/-- Lookup `accounts.get(txn_data["plaid_account_id"])` against the mapping of
plaid.py line 214: the local id of the matching account, if any. -/
def lookupLocalAccount (accs : List Account) (pid : String) : Option String :=
  (accs.find? (fun a => a.plaid_account_id == pid)).map (fun a => a.id)

/-- The `Transaction(...)` constructor call at plaid.py lines 229-238;
`is_reimbursement` and `ai_category` take their column defaults. -/
def mkTransaction (accs : List Account) (d : TxnData) : Transaction :=
  { external_id := d.external_id
    account_id := lookupLocalAccount accs d.plaid_account_id
    amount := d.amount
    date := d.date
    merchant_name := d.merchant_name
    description := d.description
    category := d.category
    source := "plaid"
    is_reimbursement := false
    ai_category := none }

/-- The dedup existence check of plaid.py lines 220-225:
`select(Transaction).where(Transaction.external_id == ...)` - note that it
is not filtered by user. -/
def hasExternalId (txns : List Transaction) (eid : String) : Bool :=
  txns.any (fun t => t.external_id == eid)

/-- One iteration of the dedup/insert loop (plaid.py lines 218-240): skip
the draft when a stored record already carries its external id, otherwise
append the new record.  The session flushes pending inserts before each
`execute`, so records added earlier in the same loop are visible to later
existence checks. -/
def mergeStep (accs : List Account) (txns : List Transaction) (d : TxnData) :
    List Transaction :=
  if hasExternalId txns d.external_id then txns
  else txns ++ [mkTransaction accs d]

/-- The whole dedup/insert loop over the provider output. -/
def mergeAll (accs : List Account) (txns : List Transaction) (ds : List TxnData) :
    List Transaction :=
  ds.foldl (mergeStep accs) txns

/-- The `last_sync_timestamp` update loop of plaid.py lines 242-248: every
account of the user receives the sync's completion time `now`. -/
def updateLastSync (accounts : List Account) (user_id : String) (now : Int) :
    List Account :=
  accounts.map (fun a =>
    if a.user_id == user_id then { a with last_sync_timestamp := some now } else a)

/-- The database state committed by a background sync that reaches the
single `db.commit()` at plaid.py line 250: the deduplicated inserts and
the timestamp updates, and nothing else. -/
def syncCommittedState (db : DB) (user_id : String) (ds : List TxnData) (now : Int) :
    DB :=
  { db with
    transactions := mergeAll (accountsMap db user_id) db.transactions ds
    accounts := updateLastSync db.accounts user_id now }

/-! ## Session model of the background task

`sync_transactions_background` (plaid.py lines 186-255) stages every write
in the SQLAlchemy session and ends with a single `db.commit()`; its
`except` handler calls `db.rollback()`.  We model the session as a pair of
committed and pending states and replay the task as a list of operations,
any one of which may raise (a transport failure at that step). -/

/-- A SQLAlchemy session: the durable state and the uncommitted state the
task is building. -/
structure Session where
  committed : DB
  pending : DB
deriving DecidableEq

/-- Commit, `db.commit()`: the pending state becomes durable. -/
def Session.commit (s : Session) : Session := ⟨s.pending, s.pending⟩

/-- Rollback, `db.rollback()`: the pending state is discarded. -/
def Session.rollback (s : Session) : Session := ⟨s.committed, s.committed⟩

/-- The operations `sync_transactions_background` performs, in order:
the item lookup, the provider fetch, the accounts query, one dedup/insert
step per provider record, one timestamp update per user account, and the
final commit. -/
inductive SyncOp where
  | queryItem
  | fetchProvider
  | queryAccounts
  | mergeOne (d : TxnData)
  | stampOne (account_id : String)
  | commitDb
deriving DecidableEq

/-- The inputs of one invocation of `sync_transactions_background`:
the committed database it starts from, the route arguments, the outcome
of the provider call, and the completion timestamp. -/
structure SyncEnv where
  db : DB
  item_id : String
  user_id : String
  provider : Except Unit (List TxnData)
  now : Int

/-- The provider records the task iterates over (empty when the provider
call failed; in that case execution never reaches the merge loop). -/
def providerTxns (p : Except Unit (List TxnData)) : List TxnData :=
  match p with
  | .ok l => l
  | .error _ => []

/-- Does an operation raise of its own accord?  `scalar_one()` raises when
the item query returns no row (plaid.py line 201); the provider call
raises exactly when `PlaidService.sync_transactions` raised. -/
def opRaises (env : SyncEnv) : SyncOp → Bool
  | .queryItem => (findPlaidItem env.db env.item_id env.user_id).isNone
  | .fetchProvider => match env.provider with | .ok _ => false | .error _ => true
  | _ => false

/-- One per-account timestamp assignment (the loop body of plaid.py lines
243-248): the account is re-selected by id with the `user_id` filter and
its `last_sync_timestamp` set. -/
def stampOneAccount (uid : String) (now : Int) (aid : String)
    (l : List Account) : List Account :=
  l.map (fun a =>
    if a.id == aid && a.user_id == uid then
      { a with last_sync_timestamp := some now }
    else a)

/-- The effect of one operation on the pending state.  Reads leave it
unchanged; `mergeOne` is one dedup/insert step; `stampOne` is the
timestamp assignment for one account id. -/
def applyOp (env : SyncEnv) : SyncOp → DB → DB
  | .mergeOne d, db =>
      { db with transactions :=
          mergeStep (accountsMap env.db env.user_id) db.transactions d }
  | .stampOne aid, db =>
      { db with accounts := stampOneAccount env.user_id env.now aid db.accounts }
  | _, db => db

/-- The operations of one background sync that precede the commit. -/
def syncPre (env : SyncEnv) : List SyncOp :=
  [SyncOp.queryItem, SyncOp.fetchProvider, SyncOp.queryAccounts]
    ++ (providerTxns env.provider).map SyncOp.mergeOne
    ++ (accountsMap env.db env.user_id).map (fun a => SyncOp.stampOne a.id)

/-- The operation sequence of one background sync: everything is staged in
the session and a single commit ends the task (plaid.py line 250). -/
def syncProgram (env : SyncEnv) : List SyncOp :=
  syncPre env ++ [SyncOp.commitDb]

/-- Run the task.  `fl` is a failure oracle: its head decides whether the
current operation raises with a transport error.  The first raise -
injected or inherent - takes the `except` branch: the session is rolled
back and the task ends. -/
def runSync (env : SyncEnv) : List SyncOp → List Bool → Session → Session
  | [], _, s => s
  | op :: rest, fl, s =>
      if fl.headD false || opRaises env op then s.rollback
      else if op = SyncOp.commitDb then runSync env rest fl.tail s.commit
      else runSync env rest fl.tail { s with pending := applyOp env op s.pending }

/-- Did the run raise at some operation? -/
def raisesRun (env : SyncEnv) : List SyncOp → List Bool → Bool
  | [], _ => false
  | op :: rest, fl =>
      fl.headD false || opRaises env op || raisesRun env rest fl.tail

/-- One full invocation of `sync_transactions_background` on a fresh
session over the committed state `env.db`. -/
def sync_transactions_background (env : SyncEnv) (fl : List Bool) : Session :=
  runSync env (syncProgram env) fl ⟨env.db, env.db⟩

/-! ## Analytics (api/routes/analytics.py) -/

/-- The join predicate of the analytics queries: the transaction row joins
an account row (`Transaction.account_id == Account.id`) owned by the
requesting user (`Account.user_id == current_user.id`). -/
def rowOwnedBy (accounts : List Account) (uid : String) (t : Transaction) : Bool :=
  accounts.any (fun a => t.account_id == some a.id && a.user_id == uid)

/-- The optional start/end date filters shared by the analytics queries. -/
def inWindow (sd ed : Option Int) (d : Int) : Bool :=
  (match sd with | none => true | some s => decide (s ≤ d)) &&
  (match ed with | none => true | some e => decide (d ≤ e))

/-- One row of the `/api/analytics/spending-by-card` response
(`SpendingByCard`, analytics.py lines 22-29). -/
structure SpendingByCard where
  account_id : String
  account_name : String
  institution_name : Option String
  total_spent : ℚ
  transaction_count : Nat
deriving DecidableEq

/-- The handler `get_spending_by_card` (analytics.py lines 60-119): group the user's
joined transactions by account id, sum and count them, then attach the
account details looked up in the user's own accounts; rows whose account
is not in that per-user map are dropped. -/
def get_spending_by_card (db : DB) (uid : String) (sd ed : Option Int) :
    List SpendingByCard :=
  let ts := db.transactions.filter (fun t =>
    t.account_id.isSome && rowOwnedBy db.accounts uid t && inWindow sd ed t.date)
  let keys := (ts.map (fun t => t.account_id)).dedup
  keys.filterMap (fun key =>
    match key with
    | none => none
    | some aid =>
      let rows := ts.filter (fun t => t.account_id == some aid)
      match (db.accounts.filter (fun a => a.user_id == uid)).find?
          (fun a => a.id == aid) with
      | none => none
      | some acc => some
          { account_id := aid
            account_name := acc.account_name
            institution_name := acc.institution_name
            total_spent := (rows.map (fun t => t.amount)).sum
            transaction_count := rows.length })

/-- One row of the `/api/analytics/categories` response
(`CategorySpending`, analytics.py lines 40-46). -/
structure CategorySpending where
  category : String
  amount : ℚ
  percentage : ℚ
  transaction_count : Nat
deriving DecidableEq

/-- The category column the breakdown groups by:
`Transaction.ai_category if use_ai_category else Transaction.category`. -/
def categoryKey (use_ai : Bool) (t : Transaction) : Option String :=
  if use_ai then t.ai_category else t.category

/-- The grouped query of `get_category_breakdown` (analytics.py lines
209-232): per non-null category, the sum of amounts and the row count over
the user's joined transactions in the window. -/
def categoryRows (db : DB) (uid : String) (use_ai : Bool) (sd ed : Option Int) :
    List (String × ℚ × Nat) :=
  let ts := db.transactions.filter (fun t =>
    (categoryKey use_ai t).isSome && rowOwnedBy db.accounts uid t &&
      inWindow sd ed t.date)
  let keys := (ts.filterMap (categoryKey use_ai)).dedup
  keys.map (fun c =>
    let rows := ts.filter (fun t => categoryKey use_ai t == some c)
    (c, (rows.map (fun t => t.amount)).sum, rows.length))

/-- Python's `round()` on an exact value: round half to even. -/
def pyRound (x : ℚ) : ℤ :=
  let n : ℤ := ⌊x⌋
  let r : ℚ := x - n
  if r < 1 / 2 then n
  else if 1 / 2 < r then n + 1
  else if 2 ∣ n then n else n + 1

/-- Python `round(value, 2)`: round to two decimal places. -/
def pyRound2 (x : ℚ) : ℚ := (pyRound (x * 100) : ℚ) / 100

/-- The response construction of `get_category_breakdown` (analytics.py
lines 234-248): `total_amount` is the sum over the grouped rows; each
percentage is `round(amount / total * 100, 2)` when `total_amount > 0`
and `0.0` otherwise; an empty category string displays as
"Uncategorized" (`category or "Uncategorized"`). -/
def addPercentages (rows : List (String × ℚ × Nat)) : List CategorySpending :=
  let total := (rows.map (fun r => r.2.1)).sum
  rows.map (fun r =>
    { category := if r.1 = "" then "Uncategorized" else r.1
      amount := r.2.1
      percentage := if 0 < total then pyRound2 (r.2.1 / total * 100) else 0
      transaction_count := r.2.2 })

/-- Time-bucket granularity of `/api/analytics/spending-over-time`
(analytics.py line 128). -/
inductive Granularity where
  | daily
  | weekly
  | monthly
deriving DecidableEq

/-- The grouping key of `get_spending_over_time` (analytics.py lines
162-170): the date itself for daily; the Monday of the week for weekly
(dates are day numbers with day 0 a Monday, so `weekday = d % 7` as in
Python `date.weekday()`); for monthly the code keys on
`strftime("%Y-%m")` - the day-number model carries no calendar months, so
the year-month index is the parameter `month`, an arbitrary function of
the date. -/
def bucketKey (month : Int → Int) : Granularity → Int → Int
  | .daily, d => d
  | .weekly, d => d - d % 7
  | .monthly, d => month d

/-- The optional comma-separated `account_ids` filter of
`get_spending_over_time` (analytics.py lines 152-154):
`Transaction.account_id.in_(acc_list)`; a null account id matches no
list. -/
def accountIdsFilter (accIds : Option (List String)) (t : Transaction) : Bool :=
  match accIds with
  | none => true
  | some l =>
    match t.account_id with
    | some aid => l.contains aid
    | none => false

/-- The handler `get_spending_over_time` (analytics.py lines 126-189):
filter the user's joined transactions by window and account list, group
by bucket key summing amounts and counting rows, and return the buckets
sorted by key (`sorted(spending_dict.items())`; the ISO key strings sort
chronologically, modelled as the integer keys). -/
def get_spending_over_time (db : DB) (uid : String) (g : Granularity)
    (month : Int → Int) (sd ed : Option Int) (accIds : Option (List String)) :
    List (Int × ℚ × Nat) :=
  let ts := db.transactions.filter (fun t =>
    rowOwnedBy db.accounts uid t && inWindow sd ed t.date &&
      accountIdsFilter accIds t)
  let keys := (ts.map (fun t => bucketKey month g t.date)).dedup
  (keys.map (fun k =>
    let rows := ts.filter (fun t => bucketKey month g t.date == k)
    (k, (rows.map (fun t => t.amount)).sum, rows.length))).mergeSort
    (fun a b => decide (a.1 ≤ b.1))

/-- The handler `get_category_breakdown` (analytics.py lines 192-257):
the grouped per-category query, the percentage construction, and the
final sort by amount descending (`response.sort(key=amount,
reverse=True)`). -/
def get_category_breakdown (db : DB) (uid : String) (use_ai : Bool)
    (sd ed : Option Int) : List CategorySpending :=
  (addPercentages (categoryRows db uid use_ai sd ed)).mergeSort
    (fun a b => decide (b.amount ≤ a.amount))

/-- One row of the `/api/analytics/reimbursements` response
(`ReimbursementItem`, analytics.py lines 49-57).  The uuid
`transaction_id` is not modelled (as for `Transaction`), and the
`confidence` field is never set by the handler. -/
structure ReimbursementItem where
  date : Int
  merchant_name : String
  amount : ℚ
  description : Option String
deriving DecidableEq

/-- The handler `get_reimbursements` (analytics.py lines 260-309): the
user's joined reimbursement-flagged transactions in the window, ordered
by date descending, with `merchant_name or "Unknown"` for the display
name. -/
def get_reimbursements (db : DB) (uid : String) (sd ed : Option Int) :
    List ReimbursementItem :=
  let ts := db.transactions.filter (fun t =>
    t.is_reimbursement && rowOwnedBy db.accounts uid t && inWindow sd ed t.date)
  (ts.mergeSort (fun a b => decide (b.date ≤ a.date))).map (fun t =>
    { date := t.date
      merchant_name := (pyOr t.merchant_name (some "Unknown")).getD "Unknown"
      amount := t.amount
      description := t.description })

/-- The `/api/analytics/summary` response (analytics.py lines 343-374):
`date_range` is absent from the empty-table response. -/
structure SpendingSummary where
  total_spent : ℚ
  transaction_count : Nat
  average_transaction : ℚ
  reimbursements_total : ℚ
  unique_merchants : Nat
  date_range : Option (Int × Int)
deriving DecidableEq

/-- The handler `get_spending_summary` (analytics.py lines 312-378): the
zero summary when the user's joined window is empty, otherwise rounded
total, count, rounded average (guarded by `count > 0` as in the code),
rounded reimbursement total, the number of distinct truthy merchant
names, and the min/max transaction dates. -/
def get_spending_summary (db : DB) (uid : String) (sd ed : Option Int) :
    SpendingSummary :=
  let ts := db.transactions.filter (fun t =>
    rowOwnedBy db.accounts uid t && inWindow sd ed t.date)
  if ts.isEmpty then
    { total_spent := 0, transaction_count := 0, average_transaction := 0,
      reimbursements_total := 0, unique_merchants := 0, date_range := none }
  else
    let total := (ts.map (fun t => t.amount)).sum
    { total_spent := pyRound2 total
      transaction_count := ts.length
      average_transaction :=
        (if ts.length > 0 then pyRound2 (total / (ts.length : ℚ)) else 0)
      reimbursements_total :=
        (pyRound2 (((ts.filter (fun t => t.is_reimbursement)).map
          (fun t => t.amount)).sum))
      unique_merchants := ((ts.filterMap (fun t => pyOr t.merchant_name none)).dedup).length
      date_range :=
        (match (ts.map (fun t => t.date)).min?, (ts.map (fun t => t.date)).max? with
          | some a, some b => some (a, b)
          | _, _ => none) }

/-! ## LLM providers (services/llm/) -/

/-- The keyword list of the `detect_reimbursement` fallback, identical in
`OllamaProvider` (ollama_provider.py lines 100-108) and `OpenAIProvider`
(openai_provider.py lines 106-114). -/
def reimbursementKeywords : List (List Char) :=
  ["reimburse".toList, "paid back".toList, "split".toList, "venmo".toList,
    "zelle".toList, "repay".toList, "refund".toList]

/-- Python's `k in text` substring test, on character lists. -/
def hasSubstr (pat : List Char) : List Char → Bool
  | [] => pat.isEmpty
  | c :: rest => pat.isPrefixOf (c :: rest) || hasSubstr pat rest

/-- The fallback branch of `detect_reimbursement`, identical in both
providers (ollama_provider.py lines 98-113, openai_provider.py lines
104-119): scan `f"{description} {merchant}".lower()` for the keywords;
a hit yields `(True, 0.7)`, otherwise `(False, 0.3)`.  (Python returns on
the first matching keyword, which yields the same value as the
existential scan.) -/
def reimbursementFallback (description merchant : List Char) : Bool × ℚ :=
  let text := (description ++ [' '] ++ merchant).map Char.toLower
  if reimbursementKeywords.any (fun k => hasSubstr k text) then (true, 7 / 10)
  else (false, 3 / 10)

/-- The method `OllamaProvider.detect_reimbursement` (ollama_provider.py lines
75-113): `parsed` is the outcome of the try block (the chat call,
`json.loads` and the key extraction); any exception there takes the
keyword fallback. -/
def ollama_detect_reimbursement (parsed : Except Unit (Bool × ℚ))
    (description merchant : List Char) : Bool × ℚ :=
  match parsed with
  | .ok r => r
  | .error _ => reimbursementFallback description merchant

/-- The method `OpenAIProvider.detect_reimbursement` (openai_provider.py lines
79-119): same structure as the Ollama variant. -/
def openai_detect_reimbursement (parsed : Except Unit (Bool × ℚ))
    (description merchant : List Char) : Bool × ℚ :=
  match parsed with
  | .ok r => r
  | .error _ => reimbursementFallback description merchant

/-- Python's `str.strip()`: drop whitespace from both ends (on character
lists, so that it evaluates by structural recursion). -/
def pyStrip (s : List Char) : List Char :=
  ((s.dropWhile Char.isWhitespace).reverse.dropWhile Char.isWhitespace).reverse

/-- The method `OllamaProvider.categorize_transaction` (ollama_provider.py lines
54-73): the try block's outcome is `.error ()` when the chat call raised,
`.ok none` when the response's content field is missing or null (so the
`.strip()` inside the try raises), and `.ok (some s)` for content `s`.
Every exception is caught and mapped to the literal category "Other". -/
def ollama_categorize_transaction (response : Except Unit (Option (List Char))) :
    List Char :=
  match response with
  | .ok (some s) => pyStrip s
  | .ok none => "Other".toList
  | .error _ => "Other".toList

/-- The method `OpenAIProvider.categorize_transaction` (openai_provider.py lines
56-77): same structure as the Ollama variant. -/
def openai_categorize_transaction (response : Except Unit (Option (List Char))) :
    List Char :=
  match response with
  | .ok (some s) => pyStrip s
  | .ok none => "Other".toList
  | .error _ => "Other".toList

/-- The restriction of the database to the rows owned by `uid`: their
linked items, their accounts, and the transactions joined to their
accounts.  Used to state that reads and writes touch only a user's rows. -/
def restrictDB (db : DB) (uid : String) : DB :=
  { plaid_items := db.plaid_items.filter (fun it => it.user_id == uid)
    accounts := db.accounts.filter (fun a => a.user_id == uid)
    transactions := db.transactions.filter (rowOwnedBy db.accounts uid) }

/-! ## Specification predicates and test providers for the pagination loop -/

/-- The size of the page the provider returns for a request at offset `r`. -/
def pageLen (fetch : Nat → Nat → PageResponse) (r : Nat) : Nat :=
  (fetch batch_size r).1.length

/-- The total-count figure reported by the response to a request at `r`. -/
def pageTotal (fetch : Nat → Nat → PageResponse) (r : Nat) : Nat :=
  (fetch batch_size r).2

/-- The loop's stopping condition after consuming the page at `r`:
the accumulated offset has reached the total-count reported by the most
recent response. -/
def stopsAt (fetch : Nat → Nat → PageResponse) (r : Nat) : Bool :=
  decide (pageTotal fetch r ≤ r + pageLen fetch r)

/-- The request offsets a correct run must issue, starting from offset
`o`: each request is at the running offset (the sum of the sizes of all
previously fetched pages), every non-final request leaves the stopping
condition unmet, and the final request is the first to meet it. -/
def goodChain (fetch : Nat → Nat → PageResponse) : Nat → List Nat → Bool
  | _, [] => false
  | o, [r] => r == o && stopsAt fetch r
  | o, r :: r2 :: rest =>
      r == o && !stopsAt fetch r &&
        goodChain fetch (o + pageLen fetch o) (r2 :: rest)

/-- A fixed provider transaction used to populate test pages. -/
def sampleProviderTxn : ProviderTxn :=
  { transaction_id := "t", account_id := "acc", amount := 1, date := 0,
    merchant_name := none, name := none, category := [], pending := false }

/-- The spec's two-page provider: total-count 750, a page of 500 at offset
0 and a page of 250 at offset 500. -/
def provider750 (_count offset : Nat) : PageResponse :=
  if offset = 0 then (List.replicate 500 sampleProviderTxn, 750)
  else if offset = 500 then (List.replicate 250 sampleProviderTxn, 750)
  else ([], 750)

/-- The spec's empty-range provider: total-count 0. -/
def provider0 (_count _offset : Nat) : PageResponse := ([], 0)

/-! ## Concrete fixtures used by witnesses and counterexamples -/

/-- A stored transaction with external id "X", already categorized and
flagged as a reimbursement. -/
def txnX : Transaction :=
  { external_id := "X", account_id := none, amount := 1, date := 0,
    merchant_name := none, description := none, category := some "Food",
    source := "plaid", is_reimbursement := true, ai_category := some "Dining" }

/-- A provider draft carrying the same external id "X" with different
field values. -/
def draftX : TxnData :=
  { external_id := "X", plaid_account_id := "p", amount := 2, date := 1,
    merchant_name := none, description := none, category := none,
    pending := false }

/-- An account of user "u" that has never synced. -/
def acct1 : Account :=
  { id := "a1", plaid_account_id := "p1", user_id := "u", account_name := "Card",
    account_type := none, institution_name := none, last_four := none,
    last_sync_timestamp := none }

/-- A linked item of user "u". -/
def itemFix : PlaidItem :=
  { user_id := "u", access_token := "tok", item_id := "item1",
    institution_id := none }

/-- A database holding only that item. -/
def dbFix : DB := { plaid_items := [itemFix], accounts := [], transactions := [] }

/-- A sync invocation for user "u" on `dbFix` whose provider call
succeeds with no transactions. -/
def envFix : SyncEnv :=
  { db := dbFix, item_id := "item1", user_id := "u",
    provider := Except.ok [], now := 0 }

/-- An account owned by user "A". -/
def accA : Account :=
  { id := "accA", plaid_account_id := "pA", user_id := "A",
    account_name := "Card A", account_type := none, institution_name := none,
    last_four := none, last_sync_timestamp := none }

/-- An account owned by user "B". -/
def accB : Account :=
  { id := "accB", plaid_account_id := "pB", user_id := "B",
    account_name := "Card B", account_type := none, institution_name := none,
    last_four := none, last_sync_timestamp := none }

/-- A transaction of user "B" with external id "X". -/
def txnB : Transaction :=
  { external_id := "X", account_id := some "accB", amount := 1, date := 0,
    merchant_name := none, description := none, category := none,
    source := "plaid", is_reimbursement := false, ai_category := none }

/-- Two databases agreeing on every row of user "A" and differing only in
user "B"'s stored transaction. -/
def dbWithB : DB :=
  { plaid_items := [], accounts := [accA, accB], transactions := [txnB] }

/-- Database `dbWithB` without user "B"'s transaction. -/
def dbWithoutB : DB :=
  { plaid_items := [], accounts := [accA, accB], transactions := [] }

/-- A provider output for user "A" reusing external id "X" on A's own
account. -/
def dsX : List TxnData :=
  [{ external_id := "X", plaid_account_id := "pA", amount := 2, date := 1,
     merchant_name := none, description := none, category := none,
     pending := false }]

/-! ## Properties of the merge step -/

/-- Dedup lookup distributes over list append. -/
theorem hasExternalId_append (T E : List Transaction) (e : String) :
    hasExternalId (T ++ E) e = (hasExternalId T e || hasExternalId E e) := by
  simp [hasExternalId, List.any_append]

/-- The merge loop only appends: the stored list is a prefix of the result,
every appended record is a draft built by `mkTransaction` from some
provider record, and its external id was not previously stored. -/
theorem mergeAll_spec (accs : List Account) :
    ∀ (ds : List TxnData) (T : List Transaction),
      ∃ ext, mergeAll accs T ds = T ++ ext ∧
        ∀ r ∈ ext, hasExternalId T r.external_id = false ∧
          ∃ d ∈ ds, r = mkTransaction accs d := by
  intro ds
  induction ds with
  | nil => exact fun T => ⟨[], by simp [mergeAll]⟩
  | cons d ds ih =>
    intro T
    show ∃ ext, mergeAll accs (mergeStep accs T d) ds = T ++ ext ∧ _
    by_cases h : hasExternalId T d.external_id = true
    · obtain ⟨ext, hext, hprop⟩ := ih T
      refine ⟨ext, ?_, ?_⟩
      · simpa [mergeStep, h] using hext
      · intro r hr
        obtain ⟨h1, dd, hdd, h2⟩ := hprop r hr
        exact ⟨h1, dd, List.mem_cons_of_mem _ hdd, h2⟩
    · rw [Bool.not_eq_true] at h
      obtain ⟨ext, hext, hprop⟩ := ih (T ++ [mkTransaction accs d])
      refine ⟨mkTransaction accs d :: ext, ?_, ?_⟩
      · rw [mergeStep, if_neg (by simp [h]), hext]
        simp [List.append_assoc]
      · intro r hr
        rcases List.mem_cons.1 hr with rfl | hr
        · exact ⟨h, d, List.mem_cons_self _ _, rfl⟩
        · obtain ⟨h1, dd, hdd, h2⟩ := hprop r hr
          rw [hasExternalId_append, Bool.or_eq_false_iff] at h1
          exact ⟨h1.1, dd, List.mem_cons_of_mem _ hdd, h2⟩

/-- An external id already stored is still stored after a merge. -/
theorem hasExternalId_mergeAll_mono (accs : List Account) (ds : List TxnData)
    (T : List Transaction) (e : String) (h : hasExternalId T e = true) :
    hasExternalId (mergeAll accs T ds) e = true := by
  obtain ⟨ext, hext, -⟩ := mergeAll_spec accs ds T
  rw [hext, hasExternalId_append, h, Bool.true_or]

/-- After a merge, every provider record's external id is stored. -/
theorem mergeAll_covers (accs : List Account) :
    ∀ (ds : List TxnData) (T : List Transaction) (d : TxnData), d ∈ ds →
      hasExternalId (mergeAll accs T ds) d.external_id = true := by
  intro ds
  induction ds with
  | nil => intro T d h; cases h
  | cons d0 ds ih =>
    intro T d hd
    show hasExternalId (mergeAll accs (mergeStep accs T d0) ds) d.external_id = true
    rcases List.mem_cons.1 hd with rfl | hd
    · refine hasExternalId_mergeAll_mono accs ds _ _ ?_
      by_cases h : hasExternalId T d.external_id = true
      · simp [mergeStep, h]
      · rw [Bool.not_eq_true] at h
        rw [mergeStep, if_neg (by simp [h]), hasExternalId_append]
        simp [hasExternalId, mkTransaction]
    · exact ih _ d hd

/-- A merge in which every provider record's external id is already
stored inserts nothing at all. -/
theorem mergeAll_skip_all (accs : List Account) :
    ∀ (ds : List TxnData) (T : List Transaction),
      (∀ d ∈ ds, hasExternalId T d.external_id = true) →
      mergeAll accs T ds = T := by
  intro ds
  induction ds with
  | nil => intro T _; rfl
  | cons d ds ih =>
    intro T h
    show mergeAll accs (mergeStep accs T d) ds = T
    rw [mergeStep, if_pos (h d (List.mem_cons_self _ _))]
    exact ih T fun d' hd' => h d' (List.mem_cons_of_mem _ hd')

/-- The merge preserves pairwise-distinct external ids. -/
theorem mergeAll_pairwise (accs : List Account) :
    ∀ (ds : List TxnData) (T : List Transaction),
      T.Pairwise (fun s t => s.external_id ≠ t.external_id) →
      (mergeAll accs T ds).Pairwise (fun s t => s.external_id ≠ t.external_id) := by
  intro ds
  induction ds with
  | nil => intro T h; exact h
  | cons d ds ih =>
    intro T h
    show (mergeAll accs (mergeStep accs T d) ds).Pairwise _
    refine ih _ ?_
    rw [mergeStep]
    by_cases hd : hasExternalId T d.external_id = true
    · rw [if_pos hd]; exact h
    · rw [Bool.not_eq_true] at hd
      rw [if_neg (by simp [hd])]
      rw [List.pairwise_append]
      refine ⟨h, List.pairwise_singleton _ _, ?_⟩
      intro t ht r hr
      rw [List.mem_singleton] at hr
      subst hr
      intro hcontra
      rw [hasExternalId, List.any_eq_false] at hd
      exact hd t ht (beq_iff_eq.2 (by simpa [mkTransaction] using hcontra))

/-! ## Claim theorems: merge idempotence, frame, timestamps, window -/

/-- C1: running the background sync twice with identical provider output
leaves the stored transactions exactly as after one run (in particular the
same stored transaction count); the merge step inserts a draft only when
no stored record carries its external identifier; and syncing preserves
pairwise-distinct external identifiers, so no two stored records ever
share one, however many times sync runs. -/
theorem sync_merge_idempotent :
    (∀ (db : DB) (uid : String) (ds : List TxnData) (now now' : Int),
      (syncCommittedState (syncCommittedState db uid ds now) uid ds now').transactions
        = (syncCommittedState db uid ds now).transactions ∧
      (syncCommittedState (syncCommittedState db uid ds now) uid ds
          now').transactions.length
        = (syncCommittedState db uid ds now).transactions.length) ∧
    (∀ (accs : List Account) (T : List Transaction) (d : TxnData),
      hasExternalId T d.external_id = true → mergeStep accs T d = T) ∧
    (∀ (db : DB) (uid : String) (ds : List TxnData) (now : Int),
      db.transactions.Pairwise (fun s t => s.external_id ≠ t.external_id) →
      (syncCommittedState db uid ds now).transactions.Pairwise
        (fun s t => s.external_id ≠ t.external_id)) := by
  refine ⟨?_, ?_, ?_⟩
  · intro db uid ds now now'
    have heq :
        (syncCommittedState (syncCommittedState db uid ds now) uid ds now').transactions
          = (syncCommittedState db uid ds now).transactions := by
      show mergeAll _ (mergeAll (accountsMap db uid) db.transactions ds) ds = _
      exact mergeAll_skip_all _ ds _ fun d hd =>
        mergeAll_covers (accountsMap db uid) ds db.transactions d hd
    exact ⟨heq, by rw [heq]⟩
  · intro accs T d h
    simp [mergeStep, h]
  · intro db uid ds now h
    exact mergeAll_pairwise (accountsMap db uid) ds db.transactions h

/-- Witness for `sync_merge_idempotent` at a concrete database and
provider output. -/
theorem sync_merge_idempotent_witness :
    mergeStep [] [txnX] draftX = [txnX] ∧
    (syncCommittedState (⟨[], [], []⟩ : DB) "u" [draftX] 0).transactions.Pairwise
      (fun s t => s.external_id ≠ t.external_id) := by
  constructor
  · exact sync_merge_idempotent.2.1 [] [txnX] draftX (by decide)
  · exact sync_merge_idempotent.2.2 ⟨[], [], []⟩ "u" [draftX] 0 (by simp)

/-- C5: a re-sync never overwrites a stored record: the stored
transactions are a verbatim prefix of the post-sync transactions (so
every field of every stored record - including any AI category and
reimbursement flag - is unchanged, whether or not its external identifier
appears in the provider output), and every appended record carries an
external identifier that was not previously stored. -/
theorem resync_preserves_existing :
    ∀ (db : DB) (uid : String) (ds : List TxnData) (now : Int),
      ((syncCommittedState db uid ds now).transactions.take
          db.transactions.length = db.transactions) ∧
      (∀ t ∈ db.transactions, t ∈ (syncCommittedState db uid ds now).transactions) ∧
      (∀ r ∈ (syncCommittedState db uid ds now).transactions.drop
          db.transactions.length,
        hasExternalId db.transactions r.external_id = false) := by
  intro db uid ds now
  obtain ⟨ext, hext, hprop⟩ := mergeAll_spec (accountsMap db uid) ds db.transactions
  have htx : (syncCommittedState db uid ds now).transactions
      = db.transactions ++ ext := hext
  refine ⟨?_, ?_, ?_⟩
  · rw [htx, List.take_left]
  · intro t ht; rw [htx]; exact List.mem_append_left _ ht
  · intro r hr
    rw [htx, List.drop_left] at hr
    exact (hprop r hr).1

/-- Witness for `resync_preserves_existing` at a concrete database. -/
theorem resync_preserves_existing_witness :
    txnX ∈ (syncCommittedState (⟨[], [], [txnX]⟩ : DB) "u" [draftX] 0).transactions := by
  exact (resync_preserves_existing ⟨[], [], [txnX]⟩ "u" [draftX] 0).2.1 txnX (by simp)

/-- C9: after a sync for user `uid` reaches its commit, every account of
that user - the update does not depend on the synced item or on whether
the account received new records - has its last-sync timestamp set to the
completion time, and accounts of other users are untouched. -/
theorem last_sync_stamped_all_accounts :
    ∀ (db : DB) (uid : String) (ds : List TxnData) (now : Int) (a : Account),
      a ∈ db.accounts →
      ((a.user_id = uid →
        { a with last_sync_timestamp := some now } ∈
          (syncCommittedState db uid ds now).accounts) ∧
       (a.user_id ≠ uid → a ∈ (syncCommittedState db uid ds now).accounts)) := by
  intro db uid ds now a ha
  constructor
  · intro hu
    refine List.mem_map.2 ⟨a, ha, ?_⟩
    simp [updateLastSync, hu]
  · intro hu
    refine List.mem_map.2 ⟨a, ha, ?_⟩
    simp [updateLastSync, hu]

/-- Witness for `last_sync_stamped_all_accounts`: an account of the user
with no new records in the output is stamped anyway. -/
theorem last_sync_stamped_all_accounts_witness :
    { acct1 with last_sync_timestamp := some 7 }
      ∈ (syncCommittedState (⟨[], [acct1], []⟩ : DB) "u" [] 7).accounts := by
  exact (last_sync_stamped_all_accounts ⟨[], [acct1], []⟩ "u" [] 7 acct1 (by simp)).1 rfl

/-- C8: with both dates omitted, the sync window is today minus 730 days
through today, whose span of 730 days lies between 720 and 740 inclusive. -/
theorem default_window_span (today : Int) :
    syncWindow today none none = (today - 730, today) ∧
    720 ≤ (syncWindow today none none).2 - (syncWindow today none none).1 ∧
    (syncWindow today none none).2 - (syncWindow today none none).1 ≤ 740 := by
  refine ⟨rfl, ?_, ?_⟩ <;> · simp only [syncWindow]; omega

/-! ## Claim theorems: category percentages, categorization totality -/

/-- C7 counterexample: the claim says the reported percentage equals
`round(amount / total * 100, 2)` whenever the total over all categories is
nonzero, but the code (analytics.py line 244) tests `total_amount > 0`:
for the single category ("A", -50) the total is -50 (nonzero), the claim's
formula gives 100, yet the code reports 0. -/
theorem category_percentage_counterexample :
    ((List.map (fun r => r.2.1) [("A", (-50 : ℚ), (1 : Nat))]).sum ≠ 0) ∧
    (addPercentages [("A", (-50 : ℚ), (1 : Nat))]).map (fun c => c.percentage)
      = [0] ∧
    pyRound2 ((-50 : ℚ) /
        (List.map (fun r => r.2.1) [("A", (-50 : ℚ), (1 : Nat))]).sum * 100)
      = 100 ∧
    (0 : ℚ) ≠ 100 := by
  refine ⟨by norm_num, ?_, ?_, by norm_num⟩
  · norm_num [addPercentages]
  · norm_num [pyRound2, pyRound]

/-- C7 (amended): each category's reported percentage equals
`round(amount / total * 100, 2)` when the total over all categories is
strictly positive, and equals 0 when the total is zero or negative; in
particular a category set summing to 0 reports percentage 0 for every
category (the rational model has no NaN, and the guarded branch never
divides by the zero total). -/
theorem category_percentage_amended (rows : List (String × ℚ × Nat)) :
    ((0 : ℚ) < (rows.map (fun r => r.2.1)).sum →
      (addPercentages rows).map (fun c => c.percentage) =
        rows.map (fun r =>
          pyRound2 (r.2.1 / (rows.map (fun r => r.2.1)).sum * 100))) ∧
    ((rows.map (fun r => r.2.1)).sum ≤ 0 →
      ∀ c ∈ addPercentages rows, c.percentage = 0) := by
  constructor
  · intro h
    simp only [addPercentages, List.map_map]
    simp [h, Function.comp]
  · intro h c hc
    simp only [addPercentages, List.mem_map] at hc
    obtain ⟨r, hr, rfl⟩ := hc
    simp [not_lt.2 h]

/-- Witness for `category_percentage_amended`: a positive-total row list
and a zero-total row list. -/
theorem category_percentage_amended_witness :
    ((addPercentages [("A", (1 : ℚ), (1 : Nat))]).map (fun c => c.percentage) =
      [pyRound2 ((1 : ℚ) /
        (List.map (fun r => r.2.1) [("A", (1 : ℚ), (1 : Nat))]).sum * 100)]) ∧
    (∀ c ∈ addPercentages [("B", (0 : ℚ), (2 : Nat))], c.percentage = 0) := by
  constructor
  · exact (category_percentage_amended [("A", 1, 1)]).1 (by norm_num)
  · exact (category_percentage_amended [("B", 0, 2)]).2 (by norm_num)

/-- C10: `categorize_transaction` is total at the public interface for
both provider variants: whenever the chat call or the response handling
raises (the `.error` and `.ok none` outcomes), it returns the literal
category "Other" and no exception escapes; every outcome yields either
"Other" or the stripped response content, the two variants agree, and a
genuine "Other" categorization is indistinguishable from a provider
failure. -/
theorem categorize_total_other :
    (∀ r : Except Unit (Option (List Char)),
      ((∃ e, r = Except.error e) ∨ r = Except.ok none) →
        ollama_categorize_transaction r = "Other".toList ∧
        openai_categorize_transaction r = "Other".toList) ∧
    (∀ r : Except Unit (Option (List Char)),
      ollama_categorize_transaction r = "Other".toList ∨
        ∃ s, r = Except.ok (some s) ∧ ollama_categorize_transaction r = pyStrip s) ∧
    (∀ r : Except Unit (Option (List Char)),
      openai_categorize_transaction r = ollama_categorize_transaction r) ∧
    ollama_categorize_transaction (Except.ok (some "Other".toList)) =
      ollama_categorize_transaction (Except.error ()) := by
  refine ⟨?_, ?_, ?_, ?_⟩
  · rintro r (⟨e, rfl⟩ | rfl) <;> exact ⟨rfl, rfl⟩
  · intro r
    match r with
    | .error _ => exact Or.inl rfl
    | .ok none => exact Or.inl rfl
    | .ok (some s) => exact Or.inr ⟨s, rfl, rfl⟩
  · intro r
    match r with
    | .error _ => rfl
    | .ok none => rfl
    | .ok (some s) => rfl
  · decide

/-- Witness for `categorize_total_other` at the failing outcome. -/
theorem categorize_total_other_witness :
    ollama_categorize_transaction (Except.error ()) = "Other".toList ∧
    openai_categorize_transaction (Except.error ()) = "Other".toList := by
  exact categorize_total_other.1 (Except.error ()) (Or.inl ⟨(), rfl⟩)

/-! ## Claim theorem: reimbursement-detection fallback -/

/-- The embedded Python substring test agrees with list-infix. -/
theorem hasSubstr_iff (pat : List Char) :
    ∀ l : List Char, hasSubstr pat l = true ↔ pat <:+: l := by
  intro l
  induction l with
  | nil => simp [hasSubstr, List.isEmpty_iff, List.infix_nil]
  | cons c rest ih => simp [hasSubstr, ih, List.infix_cons_iff]

/-- The fallback answers `(true, 7/10)` exactly on a keyword hit. -/
theorem reimbursementFallback_eq_true_iff (d m : List Char) :
    reimbursementFallback d m = (true, 7 / 10) ↔
      (reimbursementKeywords.any
        (fun k => hasSubstr k ((d ++ [' '] ++ m).map Char.toLower))) = true := by
  unfold reimbursementFallback
  dsimp only
  split
  · simp_all
  · simp_all

/-- C6: with an unparsable structured response (the `.error` outcome of
the try block), `detect_reimbursement` returns `(true, 0.7)` exactly when
one of the fixed keywords occurs, case-insensitively, in the
space-separated concatenation of description and merchant
(`f-string` of the two fields), and `(false, 0.3)` otherwise; both
provider variants behave identically; and in particular a description
containing "paid back" yields `(true, 0.7)`. -/
theorem detect_reimbursement_fallback_spec :
    (∀ d m : List Char,
      (ollama_detect_reimbursement (Except.error ()) d m = (true, 7 / 10) ↔
        ∃ k ∈ reimbursementKeywords,
          k <:+: (d ++ [' '] ++ m).map Char.toLower) ∧
      (ollama_detect_reimbursement (Except.error ()) d m = (true, 7 / 10) ∨
        ollama_detect_reimbursement (Except.error ()) d m = (false, 3 / 10)) ∧
      openai_detect_reimbursement (Except.error ()) d m =
        ollama_detect_reimbursement (Except.error ()) d m) ∧
    (∀ d m : List Char, "paid back".toList <:+: d →
      ollama_detect_reimbursement (Except.error ()) d m = (true, 7 / 10)) := by
  constructor
  · intro d m
    refine ⟨?_, ?_, rfl⟩
    · show reimbursementFallback d m = (true, 7 / 10) ↔ _
      rw [reimbursementFallback_eq_true_iff]
      simp [List.any_eq_true, hasSubstr_iff]
    · show reimbursementFallback d m = (true, 7 / 10) ∨
        reimbursementFallback d m = (false, 3 / 10)
      unfold reimbursementFallback
      dsimp only
      split
      · exact Or.inl rfl
      · exact Or.inr rfl
  · intro d m h
    have hmap : ("paid back".toList).map Char.toLower = "paid back".toList := by
      decide
    have h1 : "paid back".toList <:+: d ++ [' '] ++ m := by
      rw [List.append_assoc]
      refine h.trans ⟨[], [' '] ++ m, by simp⟩
    have h2 : "paid back".toList <:+: (d ++ [' '] ++ m).map Char.toLower := by
      have := h1.map Char.toLower
      rwa [hmap] at this
    show reimbursementFallback d m = (true, 7 / 10)
    rw [reimbursementFallback_eq_true_iff]
    refine List.any_eq_true.2 ⟨"paid back".toList, ?_, ?_⟩
    · simp [reimbursementKeywords]
    · exact (hasSubstr_iff _ _).2 h2

/-- Witness for `detect_reimbursement_fallback_spec`: a description
containing "paid back". -/
theorem detect_reimbursement_fallback_spec_witness :
    ollama_detect_reimbursement (Except.error ())
      "paid back for lunch".toList "cafe".toList = (true, 7 / 10) := by
  exact detect_reimbursement_fallback_spec.2 _ _ (by decide)

/-! ## Claim theorem: pagination -/

/-- Any successful run of the pagination loop issues its requests along a
`goodChain` and accumulates exactly the records of the fetched pages. -/
theorem syncFetchLoop_spec (fetch : Nat → Nat → PageResponse) :
    ∀ (fuel off : Nat) (acc : List TxnData) (reqs : List Nat)
      (out : List TxnData × List Nat),
      syncFetchLoop fetch fuel off acc reqs = some out →
      ∃ ext, out.2 = reqs ++ ext ∧ goodChain fetch off ext = true ∧
        out.1.length = acc.length + (ext.map (pageLen fetch)).sum := by
  intro fuel
  induction fuel with
  | zero => intro off acc reqs out h; simp [syncFetchLoop] at h
  | succ fuel ih =>
    intro off acc reqs out h
    rw [syncFetchLoop] at h
    split at h
    case isTrue hlt =>
      obtain ⟨ext, h1, h2, h3⟩ := ih _ _ _ _ h
      refine ⟨off :: ext, ?_, ?_, ?_⟩
      · rw [h1]; simp
      · cases ext with
        | nil => simp [goodChain] at h2
        | cons r2 rest =>
          rw [goodChain]
          have hstop : stopsAt fetch off = false := by
            simp only [stopsAt, pageTotal, pageLen, decide_eq_false_iff_not, not_le]
            exact hlt
          rw [hstop]
          simp only [beq_self_eq_true, Bool.not_false, Bool.and_true, Bool.true_and]
          exact h2
      · rw [h3]
        simp [pageLen]
        omega
    case isFalse hlt =>
      rw [Option.some.injEq] at h
      subst h
      refine ⟨[off], by simp, ?_, ?_⟩
      · rw [goodChain]
        have hstop : stopsAt fetch off = true := by
          simp only [stopsAt, pageTotal, pageLen, decide_eq_true_eq]
          omega
        simp [hstop]
      · simp [pageLen]

set_option maxRecDepth 4000

/-- C2: the pagination loop requests each page at the running offset (the
sum of the sizes of the pages fetched before it, starting at 0), stops as
soon as the accumulated offset reaches the total-count reported by the
most recent response (`goodChain`), and accumulates one record per fetched
page row; for the two-page 500/250 provider reporting total 750 it issues
exactly the two requests at offsets 0 and 500 and accumulates exactly 750
records, and for a provider reporting total 0 it terminates at once with
zero records. -/
theorem sync_pagination :
    (∀ (fetch : Nat → Nat → PageResponse) (fuel : Nat)
      (acc : List TxnData) (reqs : List Nat),
      sync_transactions_fetch fetch fuel = some (acc, reqs) →
      goodChain fetch 0 reqs = true ∧
        acc.length = (reqs.map (pageLen fetch)).sum) ∧
    (sync_transactions_fetch provider750 2).map (fun r => (r.1.length, r.2)) =
      some (750, [0, 500]) ∧
    sync_transactions_fetch provider0 1 = some ([], [0]) := by
  refine ⟨?_, ?_, ?_⟩
  · intro fetch fuel acc reqs h
    obtain ⟨ext, h1, h2, h3⟩ := syncFetchLoop_spec fetch fuel 0 [] [] (acc, reqs) h
    simp only [List.nil_append] at h1
    subst h1
    exact ⟨h2, by simpa using h3⟩
  · rfl
  · rfl

/-- Witness for `sync_pagination` at the empty-range provider. -/
theorem sync_pagination_witness :
    goodChain provider0 0 [0] = true ∧
      (0 : Nat) = ([0].map (pageLen provider0)).sum := by
  have h := sync_pagination.1 provider0 1 [] [0] rfl
  exact ⟨h.1, by simpa using h.2⟩

/-! ## Claim theorem: single-transaction commit boundary -/

/-- The commit op never appears among the pre-commit operations. -/
theorem commit_not_mem_syncPre (env : SyncEnv) :
    SyncOp.commitDb ∉ syncPre env := by
  simp [syncPre]


/-- Running the task on a program of pre-commit operations followed by one
commit either raises somewhere - and then the session is rolled back to
its starting committed state - or raises nowhere and commits exactly the
fold of the pre-commit effects over the pending state. -/
theorem runSync_atomic (env : SyncEnv) :
    ∀ (pre : List SyncOp) (fl : List Bool) (s : Session),
      SyncOp.commitDb ∉ pre →
      (raisesRun env (pre ++ [SyncOp.commitDb]) fl = true ∧
        runSync env (pre ++ [SyncOp.commitDb]) fl s = ⟨s.committed, s.committed⟩) ∨
      (raisesRun env (pre ++ [SyncOp.commitDb]) fl = false ∧
        runSync env (pre ++ [SyncOp.commitDb]) fl s =
          ⟨pre.foldl (fun d op => applyOp env op d) s.pending,
           pre.foldl (fun d op => applyOp env op d) s.pending⟩) := by
  intro pre
  induction pre with
  | nil =>
    intro fl s _
    rw [List.nil_append]
    by_cases hr : fl.headD false = true
    · refine Or.inl ⟨?_, ?_⟩
      · rw [raisesRun, hr]
        rfl
      · rw [runSync, hr]
        rfl
    · rw [Bool.not_eq_true] at hr
      refine Or.inr ⟨?_, ?_⟩
      · rw [raisesRun, hr]
        rfl
      · rw [runSync, hr]
        rfl
  | cons op pre ih =>
    intro fl s hmem
    have hop : op ≠ SyncOp.commitDb := fun h => hmem (h ▸ List.mem_cons_self _ _)
    have hpre : SyncOp.commitDb ∉ pre := fun h => hmem (List.mem_cons_of_mem _ h)
    rw [List.cons_append]
    by_cases hr : (fl.headD false || opRaises env op) = true
    · refine Or.inl ⟨?_, ?_⟩
      · rw [raisesRun, hr]
        rfl
      · rw [runSync, hr]
        rfl
    · rw [Bool.not_eq_true] at hr
      have step : runSync env (op :: (pre ++ [SyncOp.commitDb])) fl s =
          runSync env (pre ++ [SyncOp.commitDb]) fl.tail
            ⟨s.committed, applyOp env op s.pending⟩ := by
        rw [runSync, hr, if_neg hop]
        rfl
      rcases ih fl.tail ⟨s.committed, applyOp env op s.pending⟩ hpre with
        ⟨h1, h2⟩ | ⟨h1, h2⟩
      · refine Or.inl ⟨?_, ?_⟩
        · rw [raisesRun, h1, hr]
          rfl
        · rw [step, h2]
      · refine Or.inr ⟨?_, ?_⟩
        · rw [raisesRun, h1, hr]
          rfl
        · rw [step, h2]
          rfl

/-- The dedup/insert operations fold to `mergeAll` on the pending
transactions table. -/
theorem foldl_applyOp_merge (env : SyncEnv) :
    ∀ (ds : List TxnData) (d0 : DB),
      ((ds.map SyncOp.mergeOne).foldl (fun d op => applyOp env op d) d0) =
        { d0 with transactions :=
            (mergeAll (accountsMap env.db env.user_id) d0.transactions ds) } := by
  intro ds
  induction ds with
  | nil => intro d0; rfl
  | cons d ds ih =>
    intro d0
    show ((ds.map SyncOp.mergeOne).foldl (fun d op => applyOp env op d)
      (applyOp env (SyncOp.mergeOne d) d0)) = _
    rw [ih]
    rfl

/-- Folding the per-id stamping maps equals one map keyed on presence of
the account id among the stamped ids. -/
theorem stampFold_eq (uid : String) (now : Int) :
    ∀ (ids : List String) (accs : List Account),
      ids.foldl (fun l aid => stampOneAccount uid now aid l) accs =
      accs.map (fun a =>
        if a.user_id == uid && ids.any (fun i => i == a.id) then
          { a with last_sync_timestamp := some now }
        else a) := by
  intro ids
  induction ids with
  | nil => intro accs; simp
  | cons aid ids ih =>
    intro accs
    show ids.foldl _ (stampOneAccount uid now aid accs) = _
    rw [ih, stampOneAccount, List.map_map]
    refine List.map_congr_left ?_
    intro a _
    simp only [Function.comp_apply]
    by_cases h1 : a.user_id = uid <;> by_cases h2 : a.id = aid <;>
      by_cases h3 : (ids.any (fun i => i == a.id)) = true <;>
      simp [h1, h2, h3, List.any_cons]
    rw [if_neg (fun h => h2 h.symm)]

/-- The stamping operations fold to a per-id stamping fold on the pending
accounts table. -/
theorem foldl_applyOp_stamp (env : SyncEnv) :
    ∀ (accsrc : List Account) (d0 : DB),
      ((accsrc.map (fun a => SyncOp.stampOne a.id)).foldl
        (fun d op => applyOp env op d) d0) =
      { d0 with accounts :=
          ((accsrc.map (fun a => a.id)).foldl
            (fun l aid => stampOneAccount env.user_id env.now aid l)
            d0.accounts) } := by
  intro accsrc
  induction accsrc with
  | nil => intro d0; rfl
  | cons a accsrc ih =>
    intro d0
    show ((accsrc.map (fun a => SyncOp.stampOne a.id)).foldl
      (fun d op => applyOp env op d) (applyOp env (SyncOp.stampOne a.id) d0)) = _
    rw [ih]
    rfl

/-- Stamping every id of the user's account list is exactly the timestamp
update of plaid.py lines 242-248. -/
theorem stamp_eq_updateLastSync (env : SyncEnv) :
    ((accountsMap env.db env.user_id).map (fun a => a.id)).foldl
      (fun l aid => stampOneAccount env.user_id env.now aid l)
      env.db.accounts
    = updateLastSync env.db.accounts env.user_id env.now := by
  rw [stampFold_eq]
  unfold updateLastSync
  refine List.map_congr_left ?_
  intro a ha
  by_cases h : (a.user_id == env.user_id) = true
  · have hamem : a ∈ accountsMap env.db env.user_id :=
      List.mem_filter.2 ⟨ha, h⟩
    have hid : a.id ∈ (accountsMap env.db env.user_id).map (fun a => a.id) :=
      List.mem_map_of_mem _ hamem
    have hc : (((accountsMap env.db env.user_id).map (fun a => a.id)).any
        (fun i => i == a.id)) = true :=
      List.any_eq_true.2 ⟨a.id, hid, by simp⟩
    simp [h, hc]
  · rw [Bool.not_eq_true] at h
    simp [h]

/-- The pre-commit operations of a sync fold to the committed sync state:
the deduplicated merge and the per-user timestamp update, nothing else. -/
theorem syncPre_foldl (env : SyncEnv) :
    (syncPre env).foldl (fun d op => applyOp env op d) env.db =
      syncCommittedState env.db env.user_id (providerTxns env.provider) env.now := by
  rw [syncPre, List.foldl_append, List.foldl_append]
  have h3 : ([SyncOp.queryItem, SyncOp.fetchProvider,
      SyncOp.queryAccounts].foldl (fun d op => applyOp env op d) env.db)
      = env.db := rfl
  rw [h3, foldl_applyOp_merge, foldl_applyOp_stamp]
  unfold syncCommittedState
  have hacc : ({ env.db with transactions :=
      (mergeAll (accountsMap env.db env.user_id) env.db.transactions
        (providerTxns env.provider)) } : DB).accounts = env.db.accounts := rfl
  rw [hacc, stamp_eq_updateLastSync]

/-- C3: the background sync commits atomically.  `raisesRun` covers both
the inherent failures (item lookup finding no row, the provider call
raising) and a transport failure injected at any step - any dedup query
or insert, any timestamp update, or the commit itself.  If any step
raises, the `except` handler's rollback leaves the stored state exactly
as it was before the sync began - no subset of the inserts and no
timestamp update survives; if nothing raises, the deduplicated inserts
and every timestamp update are committed together. -/
theorem sync_atomic_commit :
    ∀ (env : SyncEnv) (fl : List Bool),
      (raisesRun env (syncProgram env) fl = true →
        sync_transactions_background env fl = ⟨env.db, env.db⟩) ∧
      (raisesRun env (syncProgram env) fl = false →
        sync_transactions_background env fl =
          ⟨syncCommittedState env.db env.user_id (providerTxns env.provider) env.now,
           syncCommittedState env.db env.user_id (providerTxns env.provider)
             env.now⟩) := by
  intro env fl
  have h := runSync_atomic env (syncPre env) fl ⟨env.db, env.db⟩
    (commit_not_mem_syncPre env)
  rw [syncPre_foldl] at h
  constructor
  · intro hr
    rcases h with ⟨-, h2⟩ | ⟨h1, -⟩
    · exact h2
    · rw [syncProgram] at hr
      rw [hr] at h1
      cases h1
  · intro hr
    rcases h with ⟨h1, -⟩ | ⟨-, h2⟩
    · rw [syncProgram] at hr
      rw [hr] at h1
      cases h1
    · exact h2

/-- Witness for `sync_atomic_commit`: a transport failure at the first
step rolls back; a clean run commits the merged state. -/
theorem sync_atomic_commit_witness :
    sync_transactions_background envFix [true] = ⟨dbFix, dbFix⟩ ∧
    sync_transactions_background envFix [] =
      ⟨syncCommittedState dbFix "u" [] 0, syncCommittedState dbFix "u" [] 0⟩ := by
  exact ⟨(sync_atomic_commit envFix [true]).1 (by decide),
    (sync_atomic_commit envFix []).2 (by decide)⟩

/-! ## Claim theorems: user isolation -/

/-- C4 counterexample, refuting the claim's "reads ... only A's ...
TransactionRecord rows": the dedup existence check of plaid.py lines
220-225 matches `external_id` across ALL users' stored transactions.  The
two databases agree on every row of user "A" (same restriction to "A"),
differing only in user "B"'s stored transaction, yet the same sync
invoked by "A" commits different sets of "A"-owned rows - so the sync
observably reads another user's TransactionRecord rows. -/
theorem sync_reads_cross_user_counterexample :
    restrictDB dbWithB "A" = restrictDB dbWithoutB "A" ∧
    restrictDB (syncCommittedState dbWithB "A" dsX 5) "A" ≠
      restrictDB (syncCommittedState dbWithoutB "A" dsX 5) "A" := by
  decide

/-- The join filter over the user-restricted account table equals the join
filter over the full account table: the ownership conjunct already
implies the restriction. -/
theorem rowOwnedBy_restrict (db : DB) (uid : String) (t : Transaction) :
    rowOwnedBy ((restrictDB db uid).accounts) uid t
      = rowOwnedBy db.accounts uid t := by
  show (db.accounts.filter (fun a => a.user_id == uid)).any _ = _
  rw [List.any_filter]
  unfold rowOwnedBy
  refine congrArg _ (funext fun a => ?_)
  cases h1 : (a.user_id == uid) <;>
    cases h2 : (t.account_id == some a.id) <;> simp [h1, h2]

/-- The handler `get_spending_by_card` computes the same aggregates on the database
restricted to the user's own rows: the analytics read depends only on the
user's accounts and the transactions joined to them. -/
theorem spending_by_card_restrict (db : DB) (uid : String) (sd ed : Option Int) :
    get_spending_by_card (restrictDB db uid) uid sd ed =
      get_spending_by_card db uid sd ed := by
  unfold get_spending_by_card
  have hts : (restrictDB db uid).transactions.filter (fun t =>
      t.account_id.isSome && rowOwnedBy (restrictDB db uid).accounts uid t &&
        inWindow sd ed t.date) =
    db.transactions.filter (fun t =>
      t.account_id.isSome && rowOwnedBy db.accounts uid t &&
        inWindow sd ed t.date) := by
    show (db.transactions.filter (rowOwnedBy db.accounts uid)).filter _ = _
    rw [List.filter_filter]
    refine List.filter_congr fun t _ => ?_
    rw [rowOwnedBy_restrict]
    cases h1 : t.account_id.isSome <;>
      cases h2 : rowOwnedBy db.accounts uid t <;>
      cases h3 : inWindow sd ed t.date <;> simp [h1, h2, h3]
  have hacc : (restrictDB db uid).accounts.filter (fun a => a.user_id == uid) =
      db.accounts.filter (fun a => a.user_id == uid) := by
    show (db.accounts.filter _).filter _ = _
    rw [List.filter_filter]
    refine List.filter_congr fun a _ => ?_
    cases h1 : (a.user_id == uid) <;> simp [h1]
  rw [hts, hacc]

/-- The handler `get_spending_over_time` computes the same buckets on the
database restricted to the user's own rows. -/
theorem spending_over_time_restrict (db : DB) (uid : String) (g : Granularity)
    (month : Int → Int) (sd ed : Option Int) (accIds : Option (List String)) :
    get_spending_over_time (restrictDB db uid) uid g month sd ed accIds =
      get_spending_over_time db uid g month sd ed accIds := by
  unfold get_spending_over_time
  have hts : (restrictDB db uid).transactions.filter (fun t =>
      rowOwnedBy (restrictDB db uid).accounts uid t && inWindow sd ed t.date &&
        accountIdsFilter accIds t) =
    db.transactions.filter (fun t =>
      rowOwnedBy db.accounts uid t && inWindow sd ed t.date &&
        accountIdsFilter accIds t) := by
    show (db.transactions.filter (rowOwnedBy db.accounts uid)).filter _ = _
    rw [List.filter_filter]
    refine List.filter_congr fun t _ => ?_
    rw [rowOwnedBy_restrict]
    cases h1 : rowOwnedBy db.accounts uid t <;>
      cases h2 : inWindow sd ed t.date <;>
      cases h3 : accountIdsFilter accIds t <;> simp [h1, h2, h3]
  rw [hts]

/-- The grouped category query computes the same rows on the database
restricted to the user's own rows. -/
theorem categoryRows_restrict (db : DB) (uid : String) (use_ai : Bool)
    (sd ed : Option Int) :
    categoryRows (restrictDB db uid) uid use_ai sd ed =
      categoryRows db uid use_ai sd ed := by
  unfold categoryRows
  have hts : (restrictDB db uid).transactions.filter (fun t =>
      (categoryKey use_ai t).isSome &&
        rowOwnedBy (restrictDB db uid).accounts uid t && inWindow sd ed t.date) =
    db.transactions.filter (fun t =>
      (categoryKey use_ai t).isSome && rowOwnedBy db.accounts uid t &&
        inWindow sd ed t.date) := by
    show (db.transactions.filter (rowOwnedBy db.accounts uid)).filter _ = _
    rw [List.filter_filter]
    refine List.filter_congr fun t _ => ?_
    rw [rowOwnedBy_restrict]
    cases h1 : (categoryKey use_ai t).isSome <;>
      cases h2 : rowOwnedBy db.accounts uid t <;>
      cases h3 : inWindow sd ed t.date <;> simp [h1, h2, h3]
  rw [hts]

/-- The handler `get_category_breakdown` computes the same response on
the database restricted to the user's own rows. -/
theorem category_breakdown_restrict (db : DB) (uid : String) (use_ai : Bool)
    (sd ed : Option Int) :
    get_category_breakdown (restrictDB db uid) uid use_ai sd ed =
      get_category_breakdown db uid use_ai sd ed := by
  unfold get_category_breakdown
  rw [categoryRows_restrict]

/-- The handler `get_reimbursements` computes the same response on the
database restricted to the user's own rows. -/
theorem reimbursements_restrict (db : DB) (uid : String) (sd ed : Option Int) :
    get_reimbursements (restrictDB db uid) uid sd ed =
      get_reimbursements db uid sd ed := by
  unfold get_reimbursements
  have hts : (restrictDB db uid).transactions.filter (fun t =>
      t.is_reimbursement && rowOwnedBy (restrictDB db uid).accounts uid t &&
        inWindow sd ed t.date) =
    db.transactions.filter (fun t =>
      t.is_reimbursement && rowOwnedBy db.accounts uid t &&
        inWindow sd ed t.date) := by
    show (db.transactions.filter (rowOwnedBy db.accounts uid)).filter _ = _
    rw [List.filter_filter]
    refine List.filter_congr fun t _ => ?_
    rw [rowOwnedBy_restrict]
    cases h1 : t.is_reimbursement <;>
      cases h2 : rowOwnedBy db.accounts uid t <;>
      cases h3 : inWindow sd ed t.date <;> simp [h1, h2, h3]
  rw [hts]

/-- The handler `get_spending_summary` computes the same response on the
database restricted to the user's own rows. -/
theorem summary_restrict (db : DB) (uid : String) (sd ed : Option Int) :
    get_spending_summary (restrictDB db uid) uid sd ed =
      get_spending_summary db uid sd ed := by
  unfold get_spending_summary
  have hts : (restrictDB db uid).transactions.filter (fun t =>
      rowOwnedBy (restrictDB db uid).accounts uid t && inWindow sd ed t.date) =
    db.transactions.filter (fun t =>
      rowOwnedBy db.accounts uid t && inWindow sd ed t.date) := by
    show (db.transactions.filter (rowOwnedBy db.accounts uid)).filter _ = _
    rw [List.filter_filter]
    refine List.filter_congr fun t _ => ?_
    rw [rowOwnedBy_restrict]
    cases h1 : rowOwnedBy db.accounts uid t <;>
      cases h2 : inWindow sd ed t.date <;> simp [h1, h2]
  rw [hts]

/-- C4 (amended): every analytics read invoked by a user returns
aggregates computed only over the user's own accounts and the
transactions joined to them - for each of the five analytics handlers
(spending-by-card, spending-over-time, categories, reimbursements,
summary), restricting the database to the user's rows does not change the
response - and a sync mutates only the user's rows: linked items are
untouched, other users' accounts are untouched, every previously stored
transaction of any user is preserved verbatim, and every inserted row
attaches to one of the syncing user's accounts or to none.  (The dedup
check does read other users' transactions - the counterexample above -
which is the one part of the original claim that fails.) -/
theorem user_isolation_amended :
    (∀ (db : DB) (uid : String) (sd ed : Option Int),
      get_spending_by_card (restrictDB db uid) uid sd ed =
        get_spending_by_card db uid sd ed) ∧
    (∀ (db : DB) (uid : String) (g : Granularity) (month : Int → Int)
      (sd ed : Option Int) (accIds : Option (List String)),
      get_spending_over_time (restrictDB db uid) uid g month sd ed accIds =
        get_spending_over_time db uid g month sd ed accIds) ∧
    (∀ (db : DB) (uid : String) (use_ai : Bool) (sd ed : Option Int),
      get_category_breakdown (restrictDB db uid) uid use_ai sd ed =
        get_category_breakdown db uid use_ai sd ed) ∧
    (∀ (db : DB) (uid : String) (sd ed : Option Int),
      get_reimbursements (restrictDB db uid) uid sd ed =
        get_reimbursements db uid sd ed) ∧
    (∀ (db : DB) (uid : String) (sd ed : Option Int),
      get_spending_summary (restrictDB db uid) uid sd ed =
        get_spending_summary db uid sd ed) ∧
    (∀ (db : DB) (uid : String) (ds : List TxnData) (now : Int),
      (syncCommittedState db uid ds now).plaid_items = db.plaid_items ∧
      (∀ a ∈ db.accounts, a.user_id ≠ uid →
        a ∈ (syncCommittedState db uid ds now).accounts) ∧
      (syncCommittedState db uid ds now).transactions.take
        db.transactions.length = db.transactions ∧
      (∀ t ∈ (syncCommittedState db uid ds now).transactions.drop
          db.transactions.length,
        t.account_id = none ∨
          ∃ a ∈ db.accounts, a.user_id = uid ∧ t.account_id = some a.id)) := by
  refine ⟨spending_by_card_restrict, spending_over_time_restrict,
    category_breakdown_restrict, reimbursements_restrict, summary_restrict, ?_⟩
  intro db uid ds now
  obtain ⟨ext, hext, hprop⟩ := mergeAll_spec (accountsMap db uid) ds
    db.transactions
  have htx : (syncCommittedState db uid ds now).transactions
      = db.transactions ++ ext := hext
  refine ⟨rfl, ?_, ?_, ?_⟩
  · intro a ha hu
    refine List.mem_map.2 ⟨a, ha, ?_⟩
    simp [updateLastSync, hu]
  · rw [htx, List.take_left]
  · intro t ht
    rw [htx, List.drop_left] at ht
    obtain ⟨-, d, -, rfl⟩ := hprop t ht
    show lookupLocalAccount (accountsMap db uid) d.plaid_account_id = none ∨ _
    unfold lookupLocalAccount
    cases hfind : (accountsMap db uid).find?
        (fun a => a.plaid_account_id == d.plaid_account_id) with
    | none => exact Or.inl rfl
    | some a =>
      have hmem : a ∈ db.accounts.filter (fun x => x.user_id == uid) :=
        List.mem_of_find?_eq_some hfind
      refine Or.inr ⟨a, List.mem_of_mem_filter hmem, ?_, ?_⟩
      · have hpa := List.of_mem_filter hmem
        exact beq_iff_eq.1 hpa
      · show lookupLocalAccount (accountsMap db uid) d.plaid_account_id
          = some a.id
        unfold lookupLocalAccount
        rw [hfind]
        rfl

/-- Witness for `user_isolation_amended` at the concrete two-user
database. -/
theorem user_isolation_amended_witness :
    get_spending_by_card (restrictDB dbWithB "A") "A" none none =
      get_spending_by_card dbWithB "A" none none ∧
    get_spending_summary (restrictDB dbWithB "A") "A" none none =
      get_spending_summary dbWithB "A" none none ∧
    accB ∈ (syncCommittedState dbWithB "A" dsX 5).accounts := by
  exact ⟨user_isolation_amended.1 dbWithB "A" none none,
    user_isolation_amended.2.2.2.2.1 dbWithB "A" none none,
    (user_isolation_amended.2.2.2.2.2 dbWithB "A" dsX 5).2.1 accB
      (by simp [dbWithB]) (by decide)⟩
